import Mathlib

/-!
Verification of the `PackMap3D.py` atlas packer.

The development gives a shallow embedding of the packer: images are
modelled by their pixel dimensions, the opaque lossless PNG encoder by an
arbitrary function from the crop parameters to a byte buffer, and the
output file by a list of byte values.  `iter_tiles`, `build_downsampled`
and `pack_atlas_3d` mirror the functions of the same names in the source;
`validate_lods` mirrors the LOD validation performed by `main`.
-/

/-- Pixel dimensions of a decoded raster image (the only attributes the
packer's control flow depends on; pixel contents are absorbed by the
opaque encoder parameter). -/
structure Img where
  width : Nat
  height : Nat
deriving Repr, DecidableEq

/-- Module constant `TILE_PX_DEFAULT = 256` of the source. -/
def TILE_PX_DEFAULT : Nat := 256

/-- Module constant `MAGIC = b'ATLSv1\x00\x00'` as byte values. -/
def MAGIC : List Nat := [65, 84, 76, 83, 118, 49, 0, 0]

/-- Module constant `VERSION = 2`. -/
def VERSION : Nat := 2

/-- Module constant `NUM_LAYERS = 4`. -/
def NUM_LAYERS : Nat := 4

/-- Ceiling division on naturals, the value of Python's
`ceil(a / b)` for nonnegative integers and positive divisor. -/
def py_ceil_div (a b : Nat) : Nat := (a + b - 1) / b

/-- Embedding of `iter_tiles`: the finite sequence of
`(tx, ty, (x0, y0, x1, y1))` tuples the generator yields, row index
outer, column index inner. -/
def iter_tiles (img : Img) (tile_px : Nat) : List (Nat × Nat × (Nat × Nat × Nat × Nat)) :=
  let tiles_x := py_ceil_div img.width tile_px
  let tiles_y := py_ceil_div img.height tile_px
  (List.range tiles_y).flatMap (fun ty =>
    let y0 := ty * tile_px
    let y1 := min (y0 + tile_px) img.height
    (List.range tiles_x).map (fun tx =>
      let x0 := tx * tile_px
      let x1 := min (x0 + tile_px) img.width
      (tx, ty, (x0, y0, x1, y1))))

/-- Embedding of `build_downsampled`: identity for subsample 1, floor
division of each dimension otherwise (PIL `resize` to
`(w // subsample, h // subsample)` with the BOX filter).  PIL's `resize`
raises `ValueError` (height and width must be greater than zero) when a
target dimension is zero, and `//` itself raises for subsample 0; both
failure paths are modelled as `none`. -/
def build_downsampled (img : Img) (subsample : Nat) : Option Img :=
  if subsample = 1 then some img
  else if img.width / subsample = 0 ∨ img.height / subsample = 0 then none
  else some ⟨img.width / subsample, img.height / subsample⟩

/-- Type of the opaque lossless encoder: `encode_png_bytes` applied to the
crop of layer `z` of the LOD raster for `subsample` at a given bounding
box returns some byte buffer.  Its pixel dimensions are those of the crop
and are produced separately in `layer_records`. -/
def Enc : Type := Nat → Nat → Nat × Nat × Nat × Nat → List Nat

/-- One element of the `index_entries` list before offset resolution,
paired with its payload (`tile_data_blobs` entry): the list element
`[subsample, z, tx, ty, w, h, None, len(png_bytes)]` plus `png_bytes`. -/
structure RawEntry where
  lod : Nat
  z : Nat
  tx : Nat
  ty : Nat
  w : Nat
  h : Nat
  blob : List Nat
deriving Repr, DecidableEq

/-- One record of the written index table, after the `entry[6] = cursor`
resolution pass. -/
structure IndexEntry where
  lod : Nat
  z : Nat
  tx : Nat
  ty : Nat
  w : Nat
  h : Nat
  rel_off : Nat
  length : Nat
deriving Repr, DecidableEq

/-- Records produced by the inner tile loop for one `(subsample, z)`
pair: crop each tile box and encode it; the recorded pixel dimensions are
those of the cropped rectangle. -/
def layer_records (enc : Enc) (subsample tile_px z : Nat) (base : Img) : List RawEntry :=
  (iter_tiles base tile_px).map (fun a =>
    match a with
    | (tx, ty, (x0, y0, x1, y1)) =>
      { lod := subsample, z := z, tx := tx, ty := ty,
        w := x1 - x0, h := y1 - y0, blob := enc subsample z (x0, y0, x1, y1) })

/-- Sequential downsampling of a list of base images for one LOD: the
image itself when `subsample == 1`, else its box downsample; a raised
resize error anywhere aborts the whole run. -/
def downsample_all (subsample : Nat) : List Img → Option (List Img)
  | [] => some []
  | img :: rest =>
    match (if subsample = 1 then some img else build_downsampled img subsample),
        downsample_all subsample rest with
    | some base, some l => some (base :: l)
    | _, _ => none

/-- The `downsampled_layers` list built for one LOD: for each
`z in range(NUM_LAYERS)`, the base image itself when `subsample == 1`,
else its box downsample; `none` when any resize fails. -/
def downsampled_layers (base_images : List Img) (subsample : Nat) : Option (List Img) :=
  downsample_all subsample
    ((List.range NUM_LAYERS).map (fun z => base_images.getD z ⟨0, 0⟩))

/-- All raw index records in production order: LOD outer loop in the
supplied order, then layer `z`, then row-major tile order; `none` when
any LOD's downsample fails. -/
def all_records (enc : Enc) (base_images : List Img) (tile_px : Nat) :
    List Nat → Option (List RawEntry)
  | [] => some []
  | subsample :: rest =>
    match downsampled_layers base_images subsample with
    | none => none
    | some layers =>
      match all_records enc base_images tile_px rest with
      | none => none
      | some recs =>
        some (layers.enum.flatMap (fun p => layer_records enc subsample tile_px p.1 p.2) ++
          recs)

/-- The offset-resolution pass: `cursor = 0`, then
`entry[6] = cursor; cursor += len(tile_data_blobs[i])` in production
order. -/
def resolve_entries : Nat → List RawEntry → List IndexEntry
  | _, [] => []
  | c, r :: rs =>
    ⟨r.lod, r.z, r.tx, r.ty, r.w, r.h, c, r.blob.length⟩ ::
      resolve_entries (c + r.blob.length) rs

/-- Little-endian serialization of `v` into `nbytes` bytes, the value of
`struct.pack` with an unsigned little-endian format code. -/
def packBytes (nbytes v : Nat) : List Nat :=
  (List.range nbytes).map (fun i => v / 256 ^ i % 256)

/-- Little-endian `struct.pack("<I", v)`. -/
def packU32 (v : Nat) : List Nat := packBytes 4 v

/-- Little-endian `struct.pack("<Q", v)`. -/
def packU64 (v : Nat) : List Nat := packBytes 8 v

/-- The 36 bytes written for one index entry. -/
def entry_bytes (e : IndexEntry) : List Nat :=
  packU32 e.lod ++ packU32 e.z ++ packU32 e.tx ++ packU32 e.ty ++
    packU32 e.w ++ packU32 e.h ++ packU64 e.rel_off ++ packU32 e.length

/-- Header bytes before the two uint64 offset fields: magic, version,
width, height, tile size, LOD count, the LOD list in the supplied order,
full-resolution tile grid, and layer count. -/
def header_pre (width height tile_px : Nat) (lods : List Nat) : List Nat :=
  MAGIC ++ packU32 VERSION ++ packU32 width ++ packU32 height ++ packU32 tile_px ++
    packU32 lods.length ++ lods.flatMap packU32 ++
    packU32 (py_ceil_div width tile_px) ++ packU32 (py_ceil_div height tile_px) ++
    packU32 NUM_LAYERS

/-- The full header as first written, with the two offset fields holding
the placeholder value 0. -/
def header_bytes (width height tile_px : Nat) (lods : List Nat) : List Nat :=
  header_pre width height tile_px lods ++ packU64 0 ++ packU64 0

/-- Seek-and-rewrite on the byte file: replace the bytes starting at
`pos` by `bs`, keeping everything else. -/
def overwriteAt (file : List Nat) (pos : Nat) (bs : List Nat) : List Nat :=
  file.take pos ++ bs ++ file.drop (pos + bs.length)

/-- The observable outcome of a successful pack run: the final byte file
plus the quantities the source computes along the way (`index_offset`,
`data_offset`, the resolved `index_entries`, and the validated base
dimensions). -/
structure PackResult where
  file : List Nat
  index_offset : Nat
  data_offset : Nat
  entries : List IndexEntry
  width : Nat
  height : Nat
deriving Repr

/-- The write phase of `pack_atlas_3d` (everything inside the
`with open(...)` block), given the raw records `raw` accumulated without
a resize failure: write the placeholder header, resolve offsets, write
index then data, and patch the two header offset fields in place. -/
def pack_build (enc : Enc) (base_images : List Img) (width height tile_px : Nat)
    (lods : List Nat) (raw : List RawEntry) : PackResult :=
  let header := header_bytes width height tile_px lods
  let header_end := header.length
  let entries := resolve_entries 0 raw
  let index_offset := header_end
  let data_offset := index_offset + entries.length * 36
  let index_bytes := entries.flatMap entry_bytes
  let data_bytes := (raw.map (fun r => r.blob)).flatten
  let unpatched := header ++ index_bytes ++ data_bytes
  let file := overwriteAt unpatched (header_end - 16) (packU64 index_offset ++ packU64 data_offset)
  ⟨file, index_offset, data_offset, entries, width, height⟩

/-- Failure modes of `pack_atlas_3d` (all raised as `ValueError` in the
source or by PIL; the spec names the first two `LayerCountMismatch` and
`LayerSizeMismatch`, and `resizeError` is PIL's resize failure for a
zero target dimension, which aborts the run mid-write leaving no valid
output). -/
inductive PackError where
  | layerCountMismatch (got : Nat)
  | layerSizeMismatch (expected_w expected_h actual_w actual_h : Nat)
  | resizeError
deriving Repr, DecidableEq

/-- The validation loop over the layers after the first: return the first
layer whose decoded size differs from the first layer's size, if any. -/
def find_size_mismatch (width height : Nat) : List Img → Option Img
  | [] => none
  | i :: rest =>
    if i.width ≠ width ∨ i.height ≠ height then some i
    else find_size_mismatch width height rest

/-- Embedding of `pack_atlas_3d`: layer-count check, layer-size
validation against the first layer (both before the output sink is
opened, so an error produces no file at all), then the write phase. -/
def pack_atlas_3d (enc : Enc) (src_imgs : List Img) (tile_px : Nat) (lods : List Nat) :
    Except PackError PackResult :=
  if src_imgs.length ≠ NUM_LAYERS then
    .error (.layerCountMismatch src_imgs.length)
  else
    match src_imgs with
    | [] => .error (.layerCountMismatch 0)
    | first :: rest =>
      match find_size_mismatch first.width first.height rest with
      | some bad =>
        .error (.layerSizeMismatch first.width first.height bad.width bad.height)
      | none =>
        match all_records enc src_imgs tile_px lods with
        | none => .error .resizeError
        | some raw => .ok (pack_build enc src_imgs first.width first.height tile_px lods raw)

/-- Embedding of the LOD validation in `main`: every value must be one of
1, 2, 4, and the list must be non-empty.  No deduplication or reordering
is performed. -/
def validate_lods (lods : List Nat) : Bool :=
  lods.all (fun v => v == 1 || v == 2 || v == 4) && !lods.isEmpty

/-- Dimension of the raster that is tiled for LOD factor `s`, per axis:
the base dimension for `s = 1`, its floor quotient otherwise. -/
def lod_dim (d s : Nat) : Nat := if s = 1 then d else d / s

/-- Number of index entries one occurrence of LOD factor `s` contributes
for base dimensions `W × H` and tile size `t`. -/
def lod_entry_count (W H t s : Nat) : Nat :=
  NUM_LAYERS * (py_ceil_div (lod_dim H s) t * py_ceil_div (lod_dim W s) t)

/-- Contiguity check for resolved entries: starting from cursor `c`, each
entry's `rel_off` equals the cursor and advances it by the entry's
`byte_length`. -/
def contiguousFrom : Nat → List IndexEntry → Bool
  | _, [] => true
  | c, e :: rest => (e.rel_off == c) && contiguousFrom (c + e.length) rest

/-- Membership of a pixel in a bounding box `(x0, y0, x1, y1)`:
`x0 ≤ px < x1` and `y0 ≤ py < y1`. -/
def in_box (b : Nat × Nat × Nat × Nat) (px py : Nat) : Prop :=
  b.1 ≤ px ∧ px < b.2.2.1 ∧ b.2.1 ≤ py ∧ py < b.2.2.2

/-- Bounding box component of a yielded tile tuple. -/
def tile_box (a : Nat × Nat × (Nat × Nat × Nat × Nat)) : Nat × Nat × Nat × Nat := a.2.2

/-- A concrete encoder instance used for witnesses and counterexamples:
payload length varies with the crop parameters. -/
def encA : Enc := fun s z b => List.replicate (s + z + b.1 + (b.2.2.1 - b.1) + 1) 7


lemma packBytes_length (n v : Nat) : (packBytes n v).length = n := by
  simp [packBytes]

lemma packU32_length (v : Nat) : (packU32 v).length = 4 := packBytes_length 4 v

lemma packU64_length (v : Nat) : (packU64 v).length = 8 := packBytes_length 8 v

lemma mul_lt_of_lt_py_ceil_div {d t tx : Nat} (ht : 0 < t) (h : tx < py_ceil_div d t) :
    tx * t < d := by
  unfold py_ceil_div at h
  have h1 : tx + 1 ≤ (d + t - 1) / t := h
  rw [Nat.le_div_iff_mul_le ht] at h1
  have h2 : (tx + 1) * t = tx * t + t := by ring
  omega

lemma le_py_ceil_div_mul {d t : Nat} (ht : 0 < t) : d ≤ py_ceil_div d t * t := by
  unfold py_ceil_div
  have h1 := Nat.div_add_mod (d + t - 1) t
  have h2 : (d + t - 1) % t < t := Nat.mod_lt _ ht
  have h3 : (d + t - 1) / t * t = t * ((d + t - 1) / t) := by ring
  omega

lemma py_ceil_div_eq {d t : Nat} (ht : 0 < t) :
    py_ceil_div d t = d / t + (if d % t = 0 then 0 else 1) := by
  unfold py_ceil_div
  have h1 := Nat.div_add_mod d t
  have h2 : d % t < t := Nat.mod_lt _ ht
  by_cases hz : d % t = 0
  · rw [if_pos hz]
    have h3 : d + t - 1 = t * (d / t) + (t - 1) := by omega
    have h4 : (t - 1) / t = 0 := Nat.div_eq_of_lt (by omega)
    rw [h3, Nat.mul_add_div ht, h4]
  · rw [if_neg hz]
    have h3 : d + t - 1 = t * (d / t + 1) + (d % t - 1) := by
      have : t * (d / t + 1) = t * (d / t) + t := by ring
      omega
    have h4 : (d % t - 1) / t = 0 := Nat.div_eq_of_lt (by omega)
    rw [h3, Nat.mul_add_div ht, h4]

lemma lt_py_ceil_div_of_lt {d t px : Nat} (ht : 0 < t) (h : px < d) :
    px / t < py_ceil_div d t := by
  have h0 : 0 < d := Nat.lt_of_le_of_lt (Nat.zero_le px) h
  have h1 : px / t ≤ (d - 1) / t := Nat.div_le_div_right (by omega)
  have h2 : d + t - 1 = (d - 1) + t := by omega
  have h3 : py_ceil_div d t = (d - 1) / t + 1 := by
    unfold py_ceil_div
    rw [h2, Nat.add_div_right _ ht]
  omega

lemma tile_extent {t d tx : Nat} (ht : 0 < t) (htx : tx < py_ceil_div d t) :
    min (tx * t + t) d - tx * t =
      if tx + 1 < py_ceil_div d t ∨ d % t = 0 then t else d % t := by
  have hx0 : tx * t < d := mul_lt_of_lt_py_ceil_div ht htx
  by_cases hc : tx + 1 < py_ceil_div d t
  · rw [if_pos (Or.inl hc)]
    have h1 : (tx + 1) * t < d := mul_lt_of_lt_py_ceil_div ht hc
    have h2 : (tx + 1) * t = tx * t + t := by ring
    have h3 : min (tx * t + t) d = tx * t + t := by omega
    omega
  · have hlast : tx + 1 = py_ceil_div d t := by omega
    have hdm := Nat.div_add_mod d t
    have hq := py_ceil_div_eq (d := d) ht
    by_cases hz : d % t = 0
    · rw [if_pos (Or.inr hz)]
      rw [hq, if_pos hz] at hlast
      -- the last tile ends exactly at d when t divides d
      have h4 : tx + 1 = d / t := by omega
      have h5 : tx * t + t = t * (d / t) := by
        have h6 : (tx + 1) * t = t * (d / t) := by rw [h4]; ring
        have h7 : (tx + 1) * t = tx * t + t := by ring
        omega
      have h8 : min (tx * t + t) d = d := by omega
      omega
    · rw [if_neg (by omega)]
      rw [hq, if_neg hz] at hlast
      have h4 : tx = d / t := by omega
      have h5 : tx * t = t * (d / t) := by rw [h4]; ring
      have h6 : d % t < t := Nat.mod_lt _ ht
      have h7 : min (tx * t + t) d = d := by omega
      omega

lemma div_eq_of_in_range {t tx px : Nat} (ht : 0 < t) (h1 : tx * t ≤ px)
    (h2 : px < tx * t + t) : px / t = tx := by
  have h3 : (tx + 1) * t = tx * t + t := by ring
  exact Nat.div_eq_of_lt_le h1 (by omega)

lemma grid_length {α : Type} (m : Nat) (f : Nat → Nat → α) :
    ∀ n : Nat,
      ((List.range n).flatMap (fun y => (List.range m).map (fun x => f x y))).length = n * m := by
  intro n
  induction n with
  | zero => simp
  | succ k ih =>
    rw [List.range_succ, List.flatMap_append]
    simp only [List.length_append, ih]
    simp [Nat.succ_mul]

lemma grid_getElem? {α : Type} (m : Nat) (f : Nat → Nat → α) :
    ∀ (n i : Nat), i < n * m →
      ((List.range n).flatMap (fun y => (List.range m).map (fun x => f x y)))[i]? =
        some (f (i % m) (i / m)) := by
  intro n
  induction n with
  | zero => intro i hi; omega
  | succ k ih =>
    intro i hi
    rw [List.range_succ, List.flatMap_append]
    have hlen := grid_length m f k
    by_cases hik : i < k * m
    · rw [List.getElem?_append_left (by omega)]
      exact ih i hik
    · have hexp : (k + 1) * m = k * m + m := by ring
      rw [List.getElem?_append_right (by omega)]
      simp only [List.flatMap_singleton, hlen]
      have hsub : i - k * m < m := by omega
      rw [List.getElem?_map, List.getElem?_range hsub]
      have hdiv : i / m = k := by
        apply Nat.div_eq_of_lt_le
        · omega
        · omega
      have hmod : i % m = i - k * m := by
        have hdm := Nat.div_add_mod i m
        rw [hdiv] at hdm
        have : m * k = k * m := by ring
        omega
      rw [hdiv, hmod]
      rfl

lemma iter_tiles_eq_grid (w h t : Nat) :
    iter_tiles ⟨w, h⟩ t =
      (List.range (py_ceil_div h t)).flatMap (fun ty =>
        (List.range (py_ceil_div w t)).map (fun tx =>
          (tx, ty, (tx * t, ty * t, min (tx * t + t) w, min (ty * t + t) h)))) := rfl

lemma iter_tiles_length (w h t : Nat) :
    (iter_tiles ⟨w, h⟩ t).length = py_ceil_div h t * py_ceil_div w t := by
  rw [iter_tiles_eq_grid]
  exact grid_length _ _ _

lemma iter_tiles_getElem? (w h t i : Nat)
    (hi : i < py_ceil_div h t * py_ceil_div w t) :
    (iter_tiles ⟨w, h⟩ t)[i]? =
      some (i % py_ceil_div w t, i / py_ceil_div w t,
        (i % py_ceil_div w t * t, i / py_ceil_div w t * t,
         min (i % py_ceil_div w t * t + t) w, min (i / py_ceil_div w t * t + t) h)) := by
  rw [iter_tiles_eq_grid]
  exact grid_getElem? _ _ _ i hi

lemma mem_iter_tiles {w h t : Nat} {a : Nat × Nat × (Nat × Nat × Nat × Nat)} :
    a ∈ iter_tiles ⟨w, h⟩ t ↔
      ∃ tx ty, tx < py_ceil_div w t ∧ ty < py_ceil_div h t ∧
        a = (tx, ty, (tx * t, ty * t, min (tx * t + t) w, min (ty * t + t) h)) := by
  rw [iter_tiles_eq_grid]
  simp only [List.mem_flatMap, List.mem_map, List.mem_range]
  constructor
  · rintro ⟨ty, hty, tx, htx, rfl⟩
    exact ⟨tx, ty, htx, hty, rfl⟩
  · rintro ⟨tx, ty, htx, hty, rfl⟩
    exact ⟨ty, hty, tx, htx, rfl⟩

lemma entry_bytes_length (e : IndexEntry) : (entry_bytes e).length = 36 := by
  simp [entry_bytes, packU32_length, packU64_length]

lemma flatMap_entry_bytes_length (es : List IndexEntry) :
    (es.flatMap entry_bytes).length = es.length * 36 := by
  induction es with
  | nil => simp
  | cons e rest ih =>
    rw [List.flatMap_cons]
    simp only [List.length_append, entry_bytes_length, ih, List.length_cons]
    ring

lemma lods_bytes_length (lods : List Nat) : (lods.flatMap packU32).length = 4 * lods.length := by
  induction lods with
  | nil => simp
  | cons s rest ih =>
    rw [List.flatMap_cons]
    simp only [List.length_append, packU32_length, ih, List.length_cons]
    ring

lemma header_pre_length (w h t : Nat) (lods : List Nat) :
    (header_pre w h t lods).length = 40 + 4 * lods.length := by
  simp only [header_pre, List.length_append, packU32_length, lods_bytes_length]
  simp [MAGIC]
  ring

lemma header_bytes_length (w h t : Nat) (lods : List Nat) :
    (header_bytes w h t lods).length = 56 + 4 * lods.length := by
  simp only [header_bytes, List.length_append, packU64_length, header_pre_length]
  ring

lemma overwriteAt_append (A B C bs : List Nat) (hb : bs.length = B.length) :
    overwriteAt (A ++ (B ++ C)) A.length bs = A ++ (bs ++ C) := by
  unfold overwriteAt
  have h1 : (A ++ (B ++ C)).take A.length = A := List.take_left A (B ++ C)
  have h2 : (A ++ (B ++ C)).drop (A.length + bs.length) = C := by
    rw [← List.append_assoc]
    apply List.drop_left'
    simp [hb]
  rw [h1, h2, List.append_assoc]

lemma pack_build_entries (enc : Enc) (imgs : List Img) (w h t : Nat) (lods : List Nat)
    (raw : List RawEntry) :
    (pack_build enc imgs w h t lods raw).entries = resolve_entries 0 raw := rfl

lemma pack_build_index_offset (enc : Enc) (imgs : List Img) (w h t : Nat) (lods : List Nat)
    (raw : List RawEntry) :
    (pack_build enc imgs w h t lods raw).index_offset = (header_bytes w h t lods).length := rfl

lemma pack_build_data_offset (enc : Enc) (imgs : List Img) (w h t : Nat) (lods : List Nat)
    (raw : List RawEntry) :
    (pack_build enc imgs w h t lods raw).data_offset =
      (header_bytes w h t lods).length + (resolve_entries 0 raw).length * 36 := rfl

lemma pack_build_width (enc : Enc) (imgs : List Img) (w h t : Nat) (lods : List Nat)
    (raw : List RawEntry) :
    (pack_build enc imgs w h t lods raw).width = w := rfl

lemma pack_build_height (enc : Enc) (imgs : List Img) (w h t : Nat) (lods : List Nat)
    (raw : List RawEntry) :
    (pack_build enc imgs w h t lods raw).height = h := rfl

lemma pack_build_file (enc : Enc) (imgs : List Img) (w h t : Nat) (lods : List Nat)
    (raw : List RawEntry) :
    (pack_build enc imgs w h t lods raw).file =
      header_pre w h t lods ++
        (packU64 (pack_build enc imgs w h t lods raw).index_offset ++
          (packU64 (pack_build enc imgs w h t lods raw).data_offset ++
            ((pack_build enc imgs w h t lods raw).entries.flatMap entry_bytes ++
              (raw.map (fun r => r.blob)).flatten))) := by
  rw [pack_build_index_offset, pack_build_data_offset, pack_build_entries]
  show overwriteAt
      (header_bytes w h t lods ++
        (resolve_entries 0 raw).flatMap entry_bytes ++
        (raw.map (fun r => r.blob)).flatten)
      ((header_bytes w h t lods).length - 16)
      (packU64 (header_bytes w h t lods).length ++
        packU64 ((header_bytes w h t lods).length +
          (resolve_entries 0 raw).length * 36)) = _
  have hpos : (header_bytes w h t lods).length - 16 = (header_pre w h t lods).length := by
    rw [header_bytes_length, header_pre_length]
    omega
  have hshape :
      header_bytes w h t lods ++
          (resolve_entries 0 raw).flatMap entry_bytes ++
          (raw.map (fun r => r.blob)).flatten =
        header_pre w h t lods ++
          ((packU64 0 ++ packU64 0) ++
            ((resolve_entries 0 raw).flatMap entry_bytes ++
              (raw.map (fun r => r.blob)).flatten)) := by
    simp [header_bytes, List.append_assoc]
  rw [hshape, hpos, overwriteAt_append _ _ _ _ (by simp [packU64_length])]
  simp [List.append_assoc]

lemma resolve_entries_length (raw : List RawEntry) :
    ∀ c, (resolve_entries c raw).length = raw.length := by
  induction raw with
  | nil => intro c; rfl
  | cons r rs ih => intro c; simp [resolve_entries, ih]

lemma resolve_entries_map_lod (raw : List RawEntry) :
    ∀ c, (resolve_entries c raw).map (fun e => e.lod) = raw.map (fun r => r.lod) := by
  induction raw with
  | nil => intro c; rfl
  | cons r rs ih => intro c; simp [resolve_entries, ih]

lemma resolve_entries_map_length (raw : List RawEntry) :
    ∀ c, (resolve_entries c raw).map (fun e => e.length) =
      raw.map (fun r => r.blob.length) := by
  induction raw with
  | nil => intro c; rfl
  | cons r rs ih => intro c; simp [resolve_entries, ih]

lemma resolve_entries_contiguous (raw : List RawEntry) :
    ∀ c, contiguousFrom c (resolve_entries c raw) = true := by
  induction raw with
  | nil => intro c; rfl
  | cons r rs ih =>
    intro c
    simp only [resolve_entries, contiguousFrom, beq_self_eq_true, Bool.true_and]
    exact ih (c + r.blob.length)

lemma resolve_entries_getLast (raw : List RawEntry) :
    ∀ c e, (resolve_entries c raw).getLast? = some e →
      e.rel_off + e.length = c + (raw.map (fun r => r.blob.length)).sum := by
  induction raw with
  | nil => intro c e h; simp [resolve_entries] at h
  | cons r rs ih =>
    intro c e h
    cases hrs : rs with
    | nil =>
      subst hrs
      simp only [resolve_entries, List.getLast?_singleton, Option.some.injEq] at h
      subst h
      simp
    | cons r2 rs2 =>
      subst hrs
      rw [show resolve_entries c (r :: r2 :: rs2) =
          ⟨r.lod, r.z, r.tx, r.ty, r.w, r.h, c, r.blob.length⟩ ::
            resolve_entries (c + r.blob.length) (r2 :: rs2) from rfl] at h
      rw [show resolve_entries (c + r.blob.length) (r2 :: rs2) =
          ⟨r2.lod, r2.z, r2.tx, r2.ty, r2.w, r2.h, c + r.blob.length, r2.blob.length⟩ ::
            resolve_entries (c + r.blob.length + r2.blob.length) rs2 from rfl] at h
      rw [List.getLast?_cons_cons] at h
      rw [show (⟨r2.lod, r2.z, r2.tx, r2.ty, r2.w, r2.h, c + r.blob.length,
            r2.blob.length⟩ : IndexEntry) ::
            resolve_entries (c + r.blob.length + r2.blob.length) rs2 =
          resolve_entries (c + r.blob.length) (r2 :: rs2) from rfl] at h
      have hih := ih (c + r.blob.length) e h
      simp only [List.map_cons, List.sum_cons] at hih ⊢
      omega

lemma mem_resolve_entries (raw : List RawEntry) :
    ∀ c e, e ∈ resolve_entries c raw →
      ∃ r ∈ raw, e.lod = r.lod ∧ e.z = r.z ∧ e.tx = r.tx ∧ e.ty = r.ty ∧
        e.w = r.w ∧ e.h = r.h ∧ e.length = r.blob.length := by
  induction raw with
  | nil => intro c e h; simp [resolve_entries] at h
  | cons r rs ih =>
    intro c e h
    simp only [resolve_entries, List.mem_cons] at h
    rcases h with h | h
    · subst h
      exact ⟨r, List.mem_cons_self r rs, rfl, rfl, rfl, rfl, rfl, rfl, rfl⟩
    · obtain ⟨r', hr', hfields⟩ := ih (c + r.blob.length) e h
      exact ⟨r', List.mem_cons_of_mem r hr', hfields⟩

lemma find_size_mismatch_none (width height : Nat) :
    ∀ l : List Img, find_size_mismatch width height l = none →
      ∀ i ∈ l, i.width = width ∧ i.height = height := by
  intro l
  induction l with
  | nil => intro _ i hi; simp at hi
  | cons a rest ih =>
    intro h i hi
    by_cases hc : a.width ≠ width ∨ a.height ≠ height
    · rw [find_size_mismatch, if_pos hc] at h
      exact absurd h (by simp)
    · rw [find_size_mismatch, if_neg hc] at h
      push_neg at hc
      rcases List.mem_cons.mp hi with rfl | hi'
      · exact hc
      · exact ih h i hi'

lemma find_size_mismatch_some_of_exists (width height : Nat) :
    ∀ l : List Img, (∃ i ∈ l, i.width ≠ width ∨ i.height ≠ height) →
      ∃ bad, find_size_mismatch width height l = some bad ∧ bad ∈ l ∧
        (bad.width ≠ width ∨ bad.height ≠ height) := by
  intro l
  induction l with
  | nil => rintro ⟨i, hi, _⟩; simp at hi
  | cons a rest ih =>
    rintro ⟨i, hi, hne⟩
    by_cases hc : a.width ≠ width ∨ a.height ≠ height
    · exact ⟨a, by rw [find_size_mismatch, if_pos hc], List.mem_cons_self a rest, hc⟩
    · rcases List.mem_cons.mp hi with rfl | hi'
      · exact absurd hne hc
      · obtain ⟨bad, hfind, hmem, hbad⟩ := ih ⟨i, hi', hne⟩
        exact ⟨bad, by rw [find_size_mismatch, if_neg hc]; exact hfind,
          List.mem_cons_of_mem a hmem, hbad⟩

lemma pack_ok_cases {enc : Enc} {imgs : List Img} {t : Nat} {lods : List Nat} {r : PackResult}
    (h : pack_atlas_3d enc imgs t lods = .ok r) :
    ∃ first rest raw, imgs = first :: rest ∧ imgs.length = NUM_LAYERS ∧
      (∀ i ∈ imgs, i.width = first.width ∧ i.height = first.height) ∧
      all_records enc imgs t lods = some raw ∧
      r = pack_build enc imgs first.width first.height t lods raw := by
  unfold pack_atlas_3d at h
  by_cases hlen : imgs.length ≠ NUM_LAYERS
  · rw [if_pos hlen] at h
    exact absurd h (by simp)
  · rw [if_neg hlen] at h
    push_neg at hlen
    cases imgs with
    | nil => exact absurd h (by simp)
    | cons first rest =>
      simp only at h
      cases hfind : find_size_mismatch first.width first.height rest with
      | some bad =>
        rw [hfind] at h
        exact absurd h (by simp)
      | none =>
        rw [hfind] at h
        cases hrec : all_records enc (first :: rest) t lods with
        | none =>
          rw [hrec] at h
          exact absurd h (by simp)
        | some raw =>
          rw [hrec] at h
          simp only [Except.ok.injEq] at h
          refine ⟨first, rest, raw, rfl, hlen, ?_, rfl, h.symm⟩
          intro i hi
          rcases List.mem_cons.mp hi with rfl | hi'
          · exact ⟨rfl, rfl⟩
          · exact find_size_mismatch_none _ _ rest hfind i hi'

lemma layer_records_map_lod (enc : Enc) (s t z : Nat) (base : Img) :
    (layer_records enc s t z base).map (fun r => r.lod) =
      List.replicate (iter_tiles base t).length s := by
  unfold layer_records
  generalize iter_tiles base t = l
  induction l with
  | nil => rfl
  | cons a rest ih =>
    rcases a with ⟨tx, ty, x0, y0, x1, y1⟩
    simp only [List.map_cons, List.length_cons, List.replicate_succ]
    rw [← ih]

lemma layer_records_length (enc : Enc) (s t z : Nat) (base : Img) :
    (layer_records enc s t z base).length = (iter_tiles base t).length := by
  simp [layer_records]

lemma downsample_all_eq {s W H : Nat} :
    ∀ l ls : List Img, (∀ i ∈ l, i.width = W ∧ i.height = H) →
      downsample_all s l = some ls →
      ls = List.replicate l.length (⟨lod_dim W s, lod_dim H s⟩ : Img) := by
  intro l
  induction l with
  | nil =>
    intro ls _ h
    simp only [downsample_all, Option.some.injEq] at h
    rw [← h]
    rfl
  | cons img rest ih =>
    intro ls hall h
    obtain ⟨hw, hh⟩ := hall img (List.mem_cons_self _ _)
    unfold downsample_all at h
    cases hb : (if s = 1 then some img else build_downsampled img s) with
    | none =>
      rw [hb] at h
      simp at h
    | some base =>
      rw [hb] at h
      cases hrest : downsample_all s rest with
      | none =>
        rw [hrest] at h
        simp at h
      | some l2 =>
        rw [hrest] at h
        simp only [Option.some.injEq] at h
        have hbase : base = (⟨lod_dim W s, lod_dim H s⟩ : Img) := by
          by_cases hs : s = 1
          · subst hs
            rw [if_pos rfl] at hb
            have himg : img = base := Option.some.inj hb
            unfold lod_dim
            rw [if_pos rfl, if_pos rfl, ← himg]
            cases img with
            | mk iw ihh =>
              simp only at hw hh
              rw [hw, hh]
          · rw [if_neg hs] at hb
            unfold build_downsampled at hb
            rw [if_neg hs] at hb
            by_cases hz : img.width / s = 0 ∨ img.height / s = 0
            · rw [if_pos hz] at hb
              exact absurd hb (by simp)
            · rw [if_neg hz] at hb
              have hv := Option.some.inj hb
              unfold lod_dim
              rw [if_neg hs, if_neg hs, ← hv, hw, hh]
        have hrec := ih l2 (fun i hi => hall i (List.mem_cons_of_mem _ hi)) hrest
        rw [← h, hbase, hrec, List.length_cons, List.replicate_succ]

lemma downsampled_layers_eq (imgs : List Img) (W H s : Nat) (ls : List Img)
    (hlen : imgs.length = NUM_LAYERS)
    (hall : ∀ i ∈ imgs, i.width = W ∧ i.height = H)
    (hdl : downsampled_layers imgs s = some ls) :
    ls = List.replicate NUM_LAYERS ⟨lod_dim W s, lod_dim H s⟩ := by
  unfold downsampled_layers at hdl
  have hmapped : ∀ i ∈ (List.range NUM_LAYERS).map (fun z => imgs.getD z ⟨0, 0⟩),
      i.width = W ∧ i.height = H := by
    intro i hi
    rw [List.mem_map] at hi
    obtain ⟨z, hz, hzi⟩ := hi
    rw [List.mem_range] at hz
    have hmem : imgs.getD z ⟨0, 0⟩ ∈ imgs := by
      rw [List.getD_eq_getElem imgs ⟨0, 0⟩ (by omega : z < imgs.length)]
      exact List.getElem_mem _
    rw [← hzi]
    exact hall _ hmem
  have := downsample_all_eq _ _ hmapped hdl
  rw [this]
  simp

lemma py_ceil_div_pos {d t : Nat} (hd : 0 < d) (ht : 0 < t) : 0 < py_ceil_div d t := by
  unfold py_ceil_div
  have h1 : (1 : Nat) ≤ (d + t - 1) / t := by
    rw [Nat.le_div_iff_mul_le ht]
    omega
  omega

lemma downsampled_dims_pos {imgs : List Img} {W H s : Nat} {ls : List Img}
    (hlen : imgs.length = NUM_LAYERS) (hall : ∀ i ∈ imgs, i.width = W ∧ i.height = H)
    (hw : 0 < W) (hh : 0 < H)
    (hdl : downsampled_layers imgs s = some ls) :
    0 < lod_dim W s ∧ 0 < lod_dim H s := by
  by_cases hs : s = 1
  · subst hs
    unfold lod_dim
    rw [if_pos rfl, if_pos rfl]
    exact ⟨hw, hh⟩
  · have h0mem : imgs.getD 0 ⟨0, 0⟩ ∈ imgs := by
      rw [List.getD_eq_getElem imgs ⟨0, 0⟩ (by rw [hlen]; decide : 0 < imgs.length)]
      exact List.getElem_mem _
    obtain ⟨h0w, h0h⟩ := hall _ h0mem
    unfold downsampled_layers at hdl
    have hmap : (List.range NUM_LAYERS).map (fun z => imgs.getD z ⟨0, 0⟩) =
        imgs.getD 0 ⟨0, 0⟩ ::
          [imgs.getD 1 ⟨0, 0⟩, imgs.getD 2 ⟨0, 0⟩, imgs.getD 3 ⟨0, 0⟩] := rfl
    rw [hmap] at hdl
    unfold downsample_all at hdl
    rw [if_neg hs] at hdl
    cases hb : build_downsampled (imgs.getD 0 ⟨0, 0⟩) s with
    | none =>
      rw [hb] at hdl
      simp at hdl
    | some base =>
      unfold build_downsampled at hb
      rw [if_neg hs] at hb
      by_cases hz : (imgs.getD 0 ⟨0, 0⟩).width / s = 0 ∨ (imgs.getD 0 ⟨0, 0⟩).height / s = 0
      · rw [if_pos hz] at hb
        exact absurd hb (by simp)
      · push_neg at hz
        rw [h0w, h0h] at hz
        unfold lod_dim
        rw [if_neg hs, if_neg hs]
        exact ⟨Nat.pos_of_ne_zero hz.1, Nat.pos_of_ne_zero hz.2⟩

lemma all_records_cons_inv {enc : Enc} {imgs : List Img} {t s : Nat} {ss : List Nat}
    {raw : List RawEntry} (h : all_records enc imgs t (s :: ss) = some raw) :
    ∃ layers recs, downsampled_layers imgs s = some layers ∧
      all_records enc imgs t ss = some recs ∧
      raw = layers.enum.flatMap (fun p => layer_records enc s t p.1 p.2) ++ recs := by
  unfold all_records at h
  cases hdl : downsampled_layers imgs s with
  | none =>
    rw [hdl] at h
    simp at h
  | some layers =>
    rw [hdl] at h
    cases hrest : all_records enc imgs t ss with
    | none =>
      rw [hrest] at h
      simp at h
    | some recs =>
      rw [hrest] at h
      simp only [Option.some.injEq] at h
      exact ⟨layers, recs, rfl, rfl, h.symm⟩

lemma per_lod_map_lod (enc : Enc) (imgs : List Img) (t s W H : Nat) (layers : List Img)
    (hlen : imgs.length = NUM_LAYERS)
    (hall : ∀ i ∈ imgs, i.width = W ∧ i.height = H)
    (hdl : downsampled_layers imgs s = some layers) :
    (layers.enum.flatMap
        (fun p => layer_records enc s t p.1 p.2)).map (fun r => r.lod) =
      List.replicate (lod_entry_count W H t s) s := by
  rw [downsampled_layers_eq imgs W H s layers hlen hall hdl]
  have henum : (List.replicate NUM_LAYERS (⟨lod_dim W s, lod_dim H s⟩ : Img)).enum =
      [(0, (⟨lod_dim W s, lod_dim H s⟩ : Img)), (1, ⟨lod_dim W s, lod_dim H s⟩),
       (2, ⟨lod_dim W s, lod_dim H s⟩), (3, ⟨lod_dim W s, lod_dim H s⟩)] := rfl
  rw [henum]
  simp only [List.flatMap_cons, List.flatMap_nil, List.append_nil, List.map_append]
  rw [layer_records_map_lod, layer_records_map_lod, layer_records_map_lod,
    layer_records_map_lod]
  have hK : (iter_tiles (⟨lod_dim W s, lod_dim H s⟩ : Img) t).length =
      py_ceil_div (lod_dim H s) t * py_ceil_div (lod_dim W s) t := iter_tiles_length _ _ _
  rw [hK]
  rw [← List.replicate_add, ← List.replicate_add, ← List.replicate_add]
  congr 1
  unfold lod_entry_count NUM_LAYERS
  ring

lemma all_records_map_lod (enc : Enc) (imgs : List Img) (t W H : Nat)
    (hlen : imgs.length = NUM_LAYERS)
    (hall : ∀ i ∈ imgs, i.width = W ∧ i.height = H) :
    ∀ (lods : List Nat) (raw : List RawEntry),
      all_records enc imgs t lods = some raw →
      raw.map (fun r => r.lod) =
        lods.flatMap (fun s => List.replicate (lod_entry_count W H t s) s) := by
  intro lods
  induction lods with
  | nil =>
    intro raw h
    simp only [all_records, Option.some.injEq] at h
    rw [← h]
    rfl
  | cons s ss ih =>
    intro raw h
    obtain ⟨layers, recs, hdl, hrest, hraw⟩ := all_records_cons_inv h
    rw [hraw, List.map_append, ih recs hrest, List.flatMap_cons,
      per_lod_map_lod enc imgs t s W H layers hlen hall hdl]

lemma count_in_blocks (K : Nat → Nat) (s : Nat) :
    ∀ lods : List Nat,
      (lods.flatMap (fun u => List.replicate (K u) u)).count s = lods.count s * K s := by
  intro lods
  induction lods with
  | nil => simp
  | cons u us ih =>
    rw [List.flatMap_cons, List.count_append, ih, List.count_replicate, List.count_cons]
    by_cases hu : u = s
    · subst hu
      simp only [beq_self_eq_true, if_true]
      ring
    · have hbeq : (u == s) = false := by simp [hu]
      rw [hbeq]
      simp

lemma mem_all_records {enc : Enc} {imgs : List Img} {t : Nat} :
    ∀ {lods : List Nat} {raw : List RawEntry} {rr : RawEntry},
      all_records enc imgs t lods = some raw → rr ∈ raw →
      ∃ s ∈ lods, ∃ layers, downsampled_layers imgs s = some layers ∧
        ∃ p ∈ layers.enum, rr ∈ layer_records enc s t p.1 p.2 := by
  intro lods
  induction lods with
  | nil =>
    intro raw rr h hm
    simp only [all_records, Option.some.injEq] at h
    rw [← h] at hm
    simp at hm
  | cons s ss ih =>
    intro raw rr h hm
    obtain ⟨layers, recs, hdl, hrest, hraw⟩ := all_records_cons_inv h
    rw [hraw, List.mem_append] at hm
    rcases hm with hm | hm
    · rw [List.mem_flatMap] at hm
      obtain ⟨p, hp, hmem⟩ := hm
      exact ⟨s, List.mem_cons_self _ _, layers, hdl, p, hp, hmem⟩
    · obtain ⟨s2, hs2, layers2, hdl2, p, hp, hmem⟩ := ih hrest hm
      exact ⟨s2, List.mem_cons_of_mem _ hs2, layers2, hdl2, p, hp, hmem⟩

lemma data_bytes_length (raw : List RawEntry) :
    ((raw.map (fun r => r.blob)).flatten).length =
      (raw.map (fun r => r.blob.length)).sum := by
  rw [List.length_flatten, List.map_map]
  have hc : (List.length ∘ fun r : RawEntry => r.blob) = fun r : RawEntry => r.blob.length := rfl
  rw [hc]

lemma pack_build_file_length (enc : Enc) (imgs : List Img) (w h t : Nat) (lods : List Nat)
    (raw : List RawEntry) :
    (pack_build enc imgs w h t lods raw).file.length =
      (pack_build enc imgs w h t lods raw).data_offset +
        (raw.map (fun r => r.blob.length)).sum := by
  rw [pack_build_file]
  simp only [List.length_append, packU64_length, pack_build_entries,
    flatMap_entry_bytes_length, resolve_entries_length, data_bytes_length,
    pack_build_data_offset, header_pre_length, header_bytes_length]
  omega

/-- C7: calling `pack_atlas_3d` with a number of layer sources other than
`NUM_LAYERS = 4` fails with the layer-count-mismatch error; the check
precedes the opening of the output sink, so the error result carries no
file and not a single byte is emitted. -/
theorem claim_C7 (enc : Enc) (imgs : List Img) (t : Nat) (lods : List Nat)
    (h : imgs.length ≠ NUM_LAYERS) :
    pack_atlas_3d enc imgs t lods = .error (.layerCountMismatch imgs.length) := by
  unfold pack_atlas_3d
  rw [if_pos h]

/-- Witness for C7 at the concrete empty layer list. -/
theorem claim_C7_witness :
    ([] : List Img).length ≠ NUM_LAYERS ∧
      pack_atlas_3d encA [] 1 [1] = .error (.layerCountMismatch ([] : List Img).length) :=
  ⟨by decide, claim_C7 encA [] 1 [1] (by decide)⟩

/-- C8: when some decoded layer's width or height differs from the first
layer's, `pack_atlas_3d` fails with the layer-size-mismatch error naming
the first offending layer; validation happens before the output sink is
opened, so the error result carries no file bytes at all. -/
theorem claim_C8 (enc : Enc) (first : Img) (rest : List Img) (t : Nat) (lods : List Nat)
    (hn : (first :: rest).length = NUM_LAYERS)
    (hm : ∃ i ∈ rest, i.width ≠ first.width ∨ i.height ≠ first.height) :
    ∃ bad ∈ rest, (bad.width ≠ first.width ∨ bad.height ≠ first.height) ∧
      pack_atlas_3d enc (first :: rest) t lods =
        .error (.layerSizeMismatch first.width first.height bad.width bad.height) := by
  obtain ⟨bad, hfind, hmem, hbad⟩ :=
    find_size_mismatch_some_of_exists first.width first.height rest hm
  refine ⟨bad, hmem, hbad, ?_⟩
  unfold pack_atlas_3d
  rw [if_neg (by omega)]
  simp only
  rw [hfind]

/-- Witness for C8: four layers where the third has a different width. -/
theorem claim_C8_witness :
    ((⟨5, 5⟩ : Img) :: [⟨5, 5⟩, ⟨6, 5⟩, ⟨5, 5⟩]).length = NUM_LAYERS ∧
      (∃ i ∈ [(⟨5, 5⟩ : Img), ⟨6, 5⟩, ⟨5, 5⟩],
        i.width ≠ (⟨5, 5⟩ : Img).width ∨ i.height ≠ (⟨5, 5⟩ : Img).height) ∧
      ∃ bad ∈ [(⟨5, 5⟩ : Img), ⟨6, 5⟩, ⟨5, 5⟩],
        (bad.width ≠ (⟨5, 5⟩ : Img).width ∨ bad.height ≠ (⟨5, 5⟩ : Img).height) ∧
        pack_atlas_3d encA ((⟨5, 5⟩ : Img) :: [⟨5, 5⟩, ⟨6, 5⟩, ⟨5, 5⟩]) 2 [1, 2] =
          .error (.layerSizeMismatch (⟨5, 5⟩ : Img).width (⟨5, 5⟩ : Img).height
            bad.width bad.height) :=
  ⟨by decide, by decide,
    claim_C8 encA ⟨5, 5⟩ [⟨5, 5⟩, ⟨6, 5⟩, ⟨5, 5⟩] 2 [1, 2] (by decide) (by decide)⟩

/-- C3: for `tile_px > 0`, `iter_tiles` yields exactly
`ceil(w / t) * ceil(h / t)` tuples, enumerated row-major with the row
index as the outer loop (element `i` is column `i mod tiles_x` of row
`i div tiles_x`), and every yielded bounding box satisfies
`x0 = tx * t`, `x1 = min (x0 + t) w` and symmetrically for `y`. -/
theorem claim_C3 (w h t : Nat) (ht : 0 < t) :
    (iter_tiles ⟨w, h⟩ t).length = py_ceil_div h t * py_ceil_div w t ∧
    (∀ i, i < py_ceil_div h t * py_ceil_div w t →
      (iter_tiles ⟨w, h⟩ t)[i]? =
        some (i % py_ceil_div w t, i / py_ceil_div w t,
          (i % py_ceil_div w t * t, i / py_ceil_div w t * t,
           min (i % py_ceil_div w t * t + t) w, min (i / py_ceil_div w t * t + t) h))) ∧
    (∀ a, a ∈ iter_tiles ⟨w, h⟩ t ↔
      ∃ tx ty, tx < py_ceil_div w t ∧ ty < py_ceil_div h t ∧
        a = (tx, ty, (tx * t, ty * t, min (tx * t + t) w, min (ty * t + t) h))) := by
  refine ⟨iter_tiles_length w h t, ?_, ?_⟩
  · intro i hi
    exact iter_tiles_getElem? w h t i hi
  · intro a
    exact mem_iter_tiles

/-- Witness for C3 at `w = 3`, `h = 2`, `t = 2`. -/
theorem claim_C3_witness :
    0 < 2 ∧
    ((iter_tiles ⟨3, 2⟩ 2).length = py_ceil_div 2 2 * py_ceil_div 3 2 ∧
      (∀ i, i < py_ceil_div 2 2 * py_ceil_div 3 2 →
        (iter_tiles ⟨3, 2⟩ 2)[i]? =
          some (i % py_ceil_div 3 2, i / py_ceil_div 3 2,
            (i % py_ceil_div 3 2 * 2, i / py_ceil_div 3 2 * 2,
             min (i % py_ceil_div 3 2 * 2 + 2) 3, min (i / py_ceil_div 3 2 * 2 + 2) 2))) ∧
      (∀ a, a ∈ iter_tiles ⟨3, 2⟩ 2 ↔
        ∃ tx ty, tx < py_ceil_div 3 2 ∧ ty < py_ceil_div 2 2 ∧
          a = (tx, ty, (tx * 2, ty * 2, min (tx * 2 + 2) 3, min (ty * 2 + 2) 2)))) :=
  ⟨by decide, claim_C3 3 2 2 (by decide)⟩

/-- C9: for `tile_px > 0`, the boxes yielded by `iter_tiles` are pairwise
disjoint, each is non-empty, together they are exactly the pixel
rectangle of the image, and exactly `ceil(w / t) * ceil(h / t)` boxes are
yielded. -/
theorem claim_C9 (w h t : Nat) (ht : 0 < t) :
    List.Pairwise
      (fun a b => ∀ px py, ¬(in_box (tile_box a) px py ∧ in_box (tile_box b) px py))
      (iter_tiles ⟨w, h⟩ t) ∧
    (∀ a ∈ iter_tiles ⟨w, h⟩ t,
      (tile_box a).1 < (tile_box a).2.2.1 ∧ (tile_box a).2.1 < (tile_box a).2.2.2) ∧
    (∀ a ∈ iter_tiles ⟨w, h⟩ t, ∀ px py, in_box (tile_box a) px py → px < w ∧ py < h) ∧
    (∀ px py, px < w → py < h → ∃ a ∈ iter_tiles ⟨w, h⟩ t, in_box (tile_box a) px py) ∧
    (iter_tiles ⟨w, h⟩ t).length = py_ceil_div w t * py_ceil_div h t := by
  refine ⟨?_, ?_, ?_, ?_, ?_⟩
  · rw [List.pairwise_iff_get]
    intro i j hij px py hboth
    obtain ⟨hpi, hpj⟩ := hboth
    have hlen := iter_tiles_length w h t
    have hbi : (i : Nat) < py_ceil_div h t * py_ceil_div w t := by
      rw [← hlen]; exact i.isLt
    have hbj : (j : Nat) < py_ceil_div h t * py_ceil_div w t := by
      rw [← hlen]; exact j.isLt
    have hgi : (iter_tiles ⟨w, h⟩ t).get i =
        ((i : Nat) % py_ceil_div w t, (i : Nat) / py_ceil_div w t,
          ((i : Nat) % py_ceil_div w t * t, (i : Nat) / py_ceil_div w t * t,
           min ((i : Nat) % py_ceil_div w t * t + t) w,
           min ((i : Nat) / py_ceil_div w t * t + t) h)) := by
      have h1 := iter_tiles_getElem? w h t (i : Nat) hbi
      rw [List.getElem?_eq_getElem i.isLt] at h1
      rw [List.get_eq_getElem]
      exact Option.some.inj h1
    have hgj : (iter_tiles ⟨w, h⟩ t).get j =
        ((j : Nat) % py_ceil_div w t, (j : Nat) / py_ceil_div w t,
          ((j : Nat) % py_ceil_div w t * t, (j : Nat) / py_ceil_div w t * t,
           min ((j : Nat) % py_ceil_div w t * t + t) w,
           min ((j : Nat) / py_ceil_div w t * t + t) h)) := by
      have h1 := iter_tiles_getElem? w h t (j : Nat) hbj
      rw [List.getElem?_eq_getElem j.isLt] at h1
      rw [List.get_eq_getElem]
      exact Option.some.inj h1
    rw [hgi] at hpi
    rw [hgj] at hpj
    simp only [tile_box, in_box] at hpi hpj
    obtain ⟨hix0, hix1, hiy0, hiy1⟩ := hpi
    obtain ⟨hjx0, hjx1, hjy0, hjy1⟩ := hpj
    have hxi : px / t = (i : Nat) % py_ceil_div w t :=
      div_eq_of_in_range ht hix0 (lt_of_lt_of_le hix1 (min_le_left _ _))
    have hyi : py / t = (i : Nat) / py_ceil_div w t :=
      div_eq_of_in_range ht hiy0 (lt_of_lt_of_le hiy1 (min_le_left _ _))
    have hxj : px / t = (j : Nat) % py_ceil_div w t :=
      div_eq_of_in_range ht hjx0 (lt_of_lt_of_le hjx1 (min_le_left _ _))
    have hyj : py / t = (j : Nat) / py_ceil_div w t :=
      div_eq_of_in_range ht hjy0 (lt_of_lt_of_le hjy1 (min_le_left _ _))
    have hdm1 := Nat.div_add_mod (i : Nat) (py_ceil_div w t)
    have hdm2 := Nat.div_add_mod (j : Nat) (py_ceil_div w t)
    have hmm : (i : Nat) % py_ceil_div w t = (j : Nat) % py_ceil_div w t := by
      rw [← hxi, hxj]
    have hdd : (i : Nat) / py_ceil_div w t = (j : Nat) / py_ceil_div w t := by
      rw [← hyi, hyj]
    rw [hmm, hdd] at hdm1
    have hij' : (i : Nat) < (j : Nat) := hij
    omega
  · intro a ha
    rw [mem_iter_tiles] at ha
    obtain ⟨tx, ty, htx, hty, rfl⟩ := ha
    simp only [tile_box]
    constructor
    · exact lt_min_iff.mpr ⟨by omega, mul_lt_of_lt_py_ceil_div ht htx⟩
    · exact lt_min_iff.mpr ⟨by omega, mul_lt_of_lt_py_ceil_div ht hty⟩
  · intro a ha px py hbox
    rw [mem_iter_tiles] at ha
    obtain ⟨tx, ty, htx, hty, rfl⟩ := ha
    simp only [tile_box, in_box] at hbox
    obtain ⟨_, hx1, _, hy1⟩ := hbox
    exact ⟨lt_of_lt_of_le hx1 (min_le_right _ _), lt_of_lt_of_le hy1 (min_le_right _ _)⟩
  · intro px py hpx hpy
    refine ⟨(px / t, py / t, (px / t * t, py / t * t,
      min (px / t * t + t) w, min (py / t * t + t) h)), ?_, ?_⟩
    · rw [mem_iter_tiles]
      exact ⟨px / t, py / t, lt_py_ceil_div_of_lt ht hpx, lt_py_ceil_div_of_lt ht hpy, rfl⟩
    · simp only [tile_box, in_box]
      have h1 : px / t * t ≤ px := Nat.div_mul_le_self px t
      have h2 : py / t * t ≤ py := Nat.div_mul_le_self py t
      have h3 := Nat.div_add_mod px t
      have h4 := Nat.div_add_mod py t
      have h5 : px % t < t := Nat.mod_lt _ ht
      have h6 : py % t < t := Nat.mod_lt _ ht
      have h7 : t * (px / t) = px / t * t := by ring
      have h8 : t * (py / t) = py / t * t := by ring
      exact ⟨h1, lt_min_iff.mpr ⟨by omega, hpx⟩, h2, lt_min_iff.mpr ⟨by omega, hpy⟩⟩
  · rw [iter_tiles_length]
    exact Nat.mul_comm _ _

/-- Witness for C9 at `w = 3`, `h = 2`, `t = 2`. -/
theorem claim_C9_witness :
    0 < 2 ∧
    (List.Pairwise
      (fun a b => ∀ px py, ¬(in_box (tile_box a) px py ∧ in_box (tile_box b) px py))
      (iter_tiles ⟨3, 2⟩ 2) ∧
    (∀ a ∈ iter_tiles ⟨3, 2⟩ 2,
      (tile_box a).1 < (tile_box a).2.2.1 ∧ (tile_box a).2.1 < (tile_box a).2.2.2) ∧
    (∀ a ∈ iter_tiles ⟨3, 2⟩ 2, ∀ px py, in_box (tile_box a) px py → px < 3 ∧ py < 2) ∧
    (∀ px py, px < 3 → py < 2 → ∃ a ∈ iter_tiles ⟨3, 2⟩ 2, in_box (tile_box a) px py) ∧
    (iter_tiles ⟨3, 2⟩ 2).length = py_ceil_div 3 2 * py_ceil_div 2 2) :=
  ⟨by decide, claim_C9 3 2 2 (by decide)⟩

/-- C1: on every successful pack run the index entries, in production
order, have contiguous `rel_off` values: the first starts at 0, each
subsequent one is the previous `rel_off` plus the previous
`byte_length`, the `byte_length`s sum to `file_size - data_offset`, and
the last entry's `rel_off + byte_length` equals
`file_size - data_offset`. -/
theorem claim_C1 (enc : Enc) (imgs : List Img) (t : Nat) (lods : List Nat) (r : PackResult)
    (h : pack_atlas_3d enc imgs t lods = .ok r) :
    contiguousFrom 0 r.entries = true ∧
    (r.entries.map (fun e => e.length)).sum = r.file.length - r.data_offset ∧
    (∀ e, r.entries.getLast? = some e →
      e.rel_off + e.length = r.file.length - r.data_offset) := by
  obtain ⟨first, rest, raw, hcons, hlen, hall, hraw, hr⟩ := pack_ok_cases h
  subst hr
  have hfl := pack_build_file_length enc imgs first.width first.height t lods raw
  refine ⟨?_, ?_, ?_⟩
  · rw [pack_build_entries]
    exact resolve_entries_contiguous _ 0
  · rw [pack_build_entries, resolve_entries_map_length]
    omega
  · intro e he
    rw [pack_build_entries] at he
    have hl := resolve_entries_getLast _ 0 e he
    omega

/-- Witness for C1 at a concrete run: four 1-by-1 layers, tile size 1,
one LOD. -/
theorem claim_C1_witness :
    pack_atlas_3d encA (List.replicate 4 ⟨1, 1⟩) 1 [1] =
      .ok (pack_build encA (List.replicate 4 ⟨1, 1⟩) 1 1 1 [1]
        ((all_records encA (List.replicate 4 ⟨1, 1⟩) 1 [1]).getD [])) ∧
    (contiguousFrom 0
        (pack_build encA (List.replicate 4 ⟨1, 1⟩) 1 1 1 [1]
          ((all_records encA (List.replicate 4 ⟨1, 1⟩) 1 [1]).getD [])).entries = true ∧
      ((pack_build encA (List.replicate 4 ⟨1, 1⟩) 1 1 1 [1]
          ((all_records encA (List.replicate 4 ⟨1, 1⟩) 1 [1]).getD [])).entries.map
          (fun e => e.length)).sum =
        (pack_build encA (List.replicate 4 ⟨1, 1⟩) 1 1 1 [1]
          ((all_records encA (List.replicate 4 ⟨1, 1⟩) 1 [1]).getD [])).file.length -
          (pack_build encA (List.replicate 4 ⟨1, 1⟩) 1 1 1 [1]
            ((all_records encA (List.replicate 4 ⟨1, 1⟩) 1 [1]).getD [])).data_offset ∧
      (∀ e, (pack_build encA (List.replicate 4 ⟨1, 1⟩) 1 1 1 [1]
          ((all_records encA (List.replicate 4 ⟨1, 1⟩) 1 [1]).getD [])).entries.getLast? =
            some e →
        e.rel_off + e.length =
          (pack_build encA (List.replicate 4 ⟨1, 1⟩) 1 1 1 [1]
            ((all_records encA (List.replicate 4 ⟨1, 1⟩) 1 [1]).getD [])).file.length -
            (pack_build encA (List.replicate 4 ⟨1, 1⟩) 1 1 1 [1]
              ((all_records encA (List.replicate 4 ⟨1, 1⟩) 1 [1]).getD [])).data_offset)) :=
  ⟨rfl, claim_C1 encA (List.replicate 4 ⟨1, 1⟩) 1 [1]
    (pack_build encA (List.replicate 4 ⟨1, 1⟩) 1 1 1 [1]
      ((all_records encA (List.replicate 4 ⟨1, 1⟩) 1 [1]).getD [])) rfl⟩

/-- C2: for every pack run over valid inputs (four decodable layers,
hence positive dimensions, positive tile size, non-empty LOD list), the
final file satisfies `index_offset < data_offset ≤ file_size`,
`data_offset - index_offset` is an exact multiple of 36 (precisely
`data_offset = index_offset + 36 * num_entries`), the index table starts
right after the header, and the two uint64 header offset fields, written
as 0 placeholders, are patched at the end to equal the actual
`index_offset` and `data_offset`. -/
theorem claim_C2 (enc : Enc) (imgs : List Img) (t : Nat) (lods : List Nat)
    (r : PackResult) (h : pack_atlas_3d enc imgs t lods = .ok r)
    (hw : 0 < r.width) (hh : 0 < r.height) (ht : 0 < t) (hl : lods ≠ []) :
    r.index_offset < r.data_offset ∧
    r.data_offset ≤ r.file.length ∧
    (r.data_offset - r.index_offset) % 36 = 0 ∧
    r.data_offset = r.index_offset + 36 * r.entries.length ∧
    r.index_offset = (header_bytes r.width r.height t lods).length ∧
    ((header_bytes r.width r.height t lods).drop (r.index_offset - 16)).take 16 =
      packU64 0 ++ packU64 0 ∧
    (r.file.drop (r.index_offset - 16)).take 16 =
      packU64 r.index_offset ++ packU64 r.data_offset := by
  obtain ⟨first, rest, raw, hcons, hlen, hall, hraw, hr⟩ := pack_ok_cases h
  subst hr
  rw [pack_build_width] at hw
  rw [pack_build_height] at hh
  have hfl := pack_build_file_length enc imgs first.width first.height t lods raw
  have hlen16 : (header_bytes first.width first.height t lods).length - 16 =
      (header_pre first.width first.height t lods).length := by
    rw [header_bytes_length, header_pre_length]
    omega
  have hsh : header_bytes first.width first.height t lods =
      header_pre first.width first.height t lods ++ (packU64 0 ++ packU64 0) := by
    simp [header_bytes, List.append_assoc]
  have hpos : 0 < raw.length := by
    cases lods with
    | nil => exact absurd rfl hl
    | cons s ss =>
      obtain ⟨layers, recs, hdl, hrest, hraweq⟩ := all_records_cons_inv hraw
      obtain ⟨hdw, hdh⟩ := downsampled_dims_pos hlen hall hw hh hdl
      have hlay := downsampled_layers_eq imgs first.width first.height s layers hlen hall hdl
      rw [hraweq, hlay]
      have henum2 : (List.replicate NUM_LAYERS
          (⟨lod_dim first.width s, lod_dim first.height s⟩ : Img)).enum =
        [(0, (⟨lod_dim first.width s, lod_dim first.height s⟩ : Img)),
         (1, ⟨lod_dim first.width s, lod_dim first.height s⟩),
         (2, ⟨lod_dim first.width s, lod_dim first.height s⟩),
         (3, ⟨lod_dim first.width s, lod_dim first.height s⟩)] := rfl
      rw [henum2]
      simp only [List.flatMap_cons, List.flatMap_nil, List.append_nil, List.length_append,
        layer_records_length, iter_tiles_length]
      have hx := py_ceil_div_pos hdw ht
      have hy := py_ceil_div_pos hdh ht
      have hxy := Nat.mul_pos hy hx
      omega
  simp only [pack_build_width, pack_build_height, pack_build_index_offset,
    pack_build_data_offset, pack_build_entries, resolve_entries_length] at hfl ⊢
  refine ⟨by omega, by omega, by omega, by omega, by trivial, ?_, ?_⟩
  · rw [hlen16, hsh, List.drop_left]
    decide
  · rw [pack_build_file]
    simp only [pack_build_index_offset, pack_build_data_offset, pack_build_entries,
      resolve_entries_length]
    rw [hlen16, List.drop_left]
    rw [← List.append_assoc]
    exact List.take_left' (by simp [packU64_length])

/-- Witness for C2 at a concrete valid run: four 1-by-1 layers, tile
size 1, one LOD, producing four index entries. -/
theorem claim_C2_witness :
    pack_atlas_3d encA (List.replicate 4 ⟨1, 1⟩) 1 [1] =
      .ok (pack_build encA (List.replicate 4 ⟨1, 1⟩) 1 1 1 [1]
        ((all_records encA (List.replicate 4 ⟨1, 1⟩) 1 [1]).getD [])) ∧
    0 < (pack_build encA (List.replicate 4 ⟨1, 1⟩) 1 1 1 [1]
      ((all_records encA (List.replicate 4 ⟨1, 1⟩) 1 [1]).getD [])).width ∧
    0 < (pack_build encA (List.replicate 4 ⟨1, 1⟩) 1 1 1 [1]
      ((all_records encA (List.replicate 4 ⟨1, 1⟩) 1 [1]).getD [])).height ∧
    0 < 1 ∧ ([1] : List Nat) ≠ [] ∧
    ((pack_build encA (List.replicate 4 ⟨1, 1⟩) 1 1 1 [1]
        ((all_records encA (List.replicate 4 ⟨1, 1⟩) 1 [1]).getD [])).index_offset <
      (pack_build encA (List.replicate 4 ⟨1, 1⟩) 1 1 1 [1]
        ((all_records encA (List.replicate 4 ⟨1, 1⟩) 1 [1]).getD [])).data_offset ∧
    (pack_build encA (List.replicate 4 ⟨1, 1⟩) 1 1 1 [1]
        ((all_records encA (List.replicate 4 ⟨1, 1⟩) 1 [1]).getD [])).data_offset ≤
      (pack_build encA (List.replicate 4 ⟨1, 1⟩) 1 1 1 [1]
        ((all_records encA (List.replicate 4 ⟨1, 1⟩) 1 [1]).getD [])).file.length ∧
    ((pack_build encA (List.replicate 4 ⟨1, 1⟩) 1 1 1 [1]
        ((all_records encA (List.replicate 4 ⟨1, 1⟩) 1 [1]).getD [])).data_offset -
      (pack_build encA (List.replicate 4 ⟨1, 1⟩) 1 1 1 [1]
        ((all_records encA (List.replicate 4 ⟨1, 1⟩) 1 [1]).getD [])).index_offset) % 36 =
      0 ∧
    (pack_build encA (List.replicate 4 ⟨1, 1⟩) 1 1 1 [1]
        ((all_records encA (List.replicate 4 ⟨1, 1⟩) 1 [1]).getD [])).data_offset =
      (pack_build encA (List.replicate 4 ⟨1, 1⟩) 1 1 1 [1]
          ((all_records encA (List.replicate 4 ⟨1, 1⟩) 1 [1]).getD [])).index_offset +
        36 * (pack_build encA (List.replicate 4 ⟨1, 1⟩) 1 1 1 [1]
          ((all_records encA (List.replicate 4 ⟨1, 1⟩) 1 [1]).getD [])).entries.length ∧
    (pack_build encA (List.replicate 4 ⟨1, 1⟩) 1 1 1 [1]
        ((all_records encA (List.replicate 4 ⟨1, 1⟩) 1 [1]).getD [])).index_offset =
      (header_bytes
        (pack_build encA (List.replicate 4 ⟨1, 1⟩) 1 1 1 [1]
          ((all_records encA (List.replicate 4 ⟨1, 1⟩) 1 [1]).getD [])).width
        (pack_build encA (List.replicate 4 ⟨1, 1⟩) 1 1 1 [1]
          ((all_records encA (List.replicate 4 ⟨1, 1⟩) 1 [1]).getD [])).height
        1 [1]).length ∧
    ((header_bytes
        (pack_build encA (List.replicate 4 ⟨1, 1⟩) 1 1 1 [1]
          ((all_records encA (List.replicate 4 ⟨1, 1⟩) 1 [1]).getD [])).width
        (pack_build encA (List.replicate 4 ⟨1, 1⟩) 1 1 1 [1]
          ((all_records encA (List.replicate 4 ⟨1, 1⟩) 1 [1]).getD [])).height
        1 [1]).drop
          ((pack_build encA (List.replicate 4 ⟨1, 1⟩) 1 1 1 [1]
            ((all_records encA (List.replicate 4 ⟨1, 1⟩) 1 [1]).getD [])).index_offset -
            16)).take 16 =
      packU64 0 ++ packU64 0 ∧
    ((pack_build encA (List.replicate 4 ⟨1, 1⟩) 1 1 1 [1]
        ((all_records encA (List.replicate 4 ⟨1, 1⟩) 1 [1]).getD [])).file.drop
          ((pack_build encA (List.replicate 4 ⟨1, 1⟩) 1 1 1 [1]
            ((all_records encA (List.replicate 4 ⟨1, 1⟩) 1 [1]).getD [])).index_offset -
            16)).take 16 =
      packU64 (pack_build encA (List.replicate 4 ⟨1, 1⟩) 1 1 1 [1]
          ((all_records encA (List.replicate 4 ⟨1, 1⟩) 1 [1]).getD [])).index_offset ++
        packU64 (pack_build encA (List.replicate 4 ⟨1, 1⟩) 1 1 1 [1]
          ((all_records encA (List.replicate 4 ⟨1, 1⟩) 1 [1]).getD [])).data_offset) :=
  ⟨rfl, by decide, by decide, by decide, by decide,
    claim_C2 encA (List.replicate 4 ⟨1, 1⟩) 1 [1]
      (pack_build encA (List.replicate 4 ⟨1, 1⟩) 1 1 1 [1]
        ((all_records encA (List.replicate 4 ⟨1, 1⟩) 1 [1]).getD []))
      rfl (by decide) (by decide) (by decide) (by decide)⟩


lemma mem_layer_records {enc : Enc} {s t z : Nat} {base : Img} {rr : RawEntry}
    (h : rr ∈ layer_records enc s t z base) :
    ∃ tx ty, tx < py_ceil_div base.width t ∧ ty < py_ceil_div base.height t ∧
      rr.lod = s ∧ rr.tx = tx ∧ rr.ty = ty ∧
      rr.w = min (tx * t + t) base.width - tx * t ∧
      rr.h = min (ty * t + t) base.height - ty * t := by
  unfold layer_records at h
  rw [List.mem_map] at h
  obtain ⟨a, ha, hrr⟩ := h
  rw [mem_iter_tiles] at ha
  obtain ⟨tx, ty, htx, hty, rfl⟩ := ha
  refine ⟨tx, ty, htx, hty, ?_, ?_, ?_, ?_, ?_⟩ <;> rw [← hrr]

/-- C4: the raster tiled for LOD factor `s` has the base dimensions for
`s = 1` and `floor(W / s) × floor(H / s)` for `s > 1` (with PIL raising
when a floor dimension is zero); and every index entry's recorded pixel
width (resp. height) equals `tile_px`, except in the last column (resp.
row) when the LOD raster dimension is not an exact multiple of
`tile_px`, where it equals the remainder. -/
theorem claim_C4 (enc : Enc) (imgs : List Img) (t : Nat) (lods : List Nat) (r : PackResult)
    (ht : 0 < t) (h : pack_atlas_3d enc imgs t lods = .ok r) :
    (∀ img : Img, ∀ s : Nat, 1 < s →
      build_downsampled img s =
        if img.width / s = 0 ∨ img.height / s = 0 then none
        else some ⟨img.width / s, img.height / s⟩) ∧
    (∀ img : Img, build_downsampled img 1 = some img) ∧
    (∀ e ∈ r.entries,
      e.w = (if e.tx + 1 < py_ceil_div (lod_dim r.width e.lod) t ∨
          lod_dim r.width e.lod % t = 0 then t else lod_dim r.width e.lod % t) ∧
      e.h = (if e.ty + 1 < py_ceil_div (lod_dim r.height e.lod) t ∨
          lod_dim r.height e.lod % t = 0 then t else lod_dim r.height e.lod % t)) := by
  refine ⟨?_, ?_, ?_⟩
  · intro img s hs
    unfold build_downsampled
    rw [if_neg (by omega)]
  · intro img
    unfold build_downsampled
    rw [if_pos rfl]
  · obtain ⟨first, rest, raw, hcons, hlen, hall, hraw, hr⟩ := pack_ok_cases h
    subst hr
    intro e he
    rw [pack_build_entries] at he
    obtain ⟨rr, hrraw, hlod, hz, htx0, hty0, hw, hh, hlength⟩ :=
      mem_resolve_entries _ 0 e he
    obtain ⟨s, hs, layers, hdl, p, hp, hrmem⟩ := mem_all_records hraw hrraw
    rw [downsampled_layers_eq imgs first.width first.height s layers hlen hall hdl] at hp
    have henum : (List.replicate NUM_LAYERS
        (⟨lod_dim first.width s, lod_dim first.height s⟩ : Img)).enum =
      [(0, (⟨lod_dim first.width s, lod_dim first.height s⟩ : Img)),
       (1, ⟨lod_dim first.width s, lod_dim first.height s⟩),
       (2, ⟨lod_dim first.width s, lod_dim first.height s⟩),
       (3, ⟨lod_dim first.width s, lod_dim first.height s⟩)] := rfl
    rw [henum] at hp
    have hpD : p.2 = (⟨lod_dim first.width s, lod_dim first.height s⟩ : Img) := by
      simp only [List.mem_cons, List.not_mem_nil, or_false] at hp
      rcases hp with hp | hp | hp | hp <;> rw [hp]
    rw [hpD] at hrmem
    obtain ⟨tx, ty, htxb, htyb, hlodeq, htxeq, htyeq, hweq, hheq⟩ := mem_layer_records hrmem
    simp only [pack_build_width, pack_build_height]
    constructor
    · rw [hw, hweq, htx0, htxeq, hlod, hlodeq]
      exact tile_extent ht htxb
    · rw [hh, hheq, hty0, htyeq, hlod, hlodeq]
      exact tile_extent ht htyb

/-- Witness for C4 at a concrete run: four 3-by-3 layers, tile size 2,
LODs `[1, 2]`. -/
theorem claim_C4_witness :
    0 < 2 ∧
    pack_atlas_3d encA (List.replicate 4 ⟨3, 3⟩) 2 [1, 2] =
      .ok (pack_build encA (List.replicate 4 ⟨3, 3⟩) 3 3 2 [1, 2]
        ((all_records encA (List.replicate 4 ⟨3, 3⟩) 2 [1, 2]).getD [])) ∧
    ((∀ img : Img, ∀ s : Nat, 1 < s →
      build_downsampled img s =
        if img.width / s = 0 ∨ img.height / s = 0 then none
        else some ⟨img.width / s, img.height / s⟩) ∧
    (∀ img : Img, build_downsampled img 1 = some img) ∧
    (∀ e ∈ (pack_build encA (List.replicate 4 ⟨3, 3⟩) 3 3 2 [1, 2]
        ((all_records encA (List.replicate 4 ⟨3, 3⟩) 2 [1, 2]).getD [])).entries,
      e.w = (if e.tx + 1 <
            py_ceil_div
              (lod_dim (pack_build encA (List.replicate 4 ⟨3, 3⟩) 3 3 2 [1, 2]
                ((all_records encA (List.replicate 4 ⟨3, 3⟩) 2 [1, 2]).getD [])).width e.lod)
              2 ∨
          lod_dim (pack_build encA (List.replicate 4 ⟨3, 3⟩) 3 3 2 [1, 2]
            ((all_records encA (List.replicate 4 ⟨3, 3⟩) 2 [1, 2]).getD [])).width e.lod % 2 =
            0
          then 2
          else lod_dim (pack_build encA (List.replicate 4 ⟨3, 3⟩) 3 3 2 [1, 2]
            ((all_records encA (List.replicate 4 ⟨3, 3⟩) 2 [1, 2]).getD [])).width
            e.lod % 2) ∧
      e.h = (if e.ty + 1 <
            py_ceil_div
              (lod_dim (pack_build encA (List.replicate 4 ⟨3, 3⟩) 3 3 2 [1, 2]
                ((all_records encA (List.replicate 4 ⟨3, 3⟩) 2 [1, 2]).getD [])).height e.lod)
              2 ∨
          lod_dim (pack_build encA (List.replicate 4 ⟨3, 3⟩) 3 3 2 [1, 2]
            ((all_records encA (List.replicate 4 ⟨3, 3⟩) 2 [1, 2]).getD [])).height e.lod % 2 =
            0
          then 2
          else lod_dim (pack_build encA (List.replicate 4 ⟨3, 3⟩) 3 3 2 [1, 2]
            ((all_records encA (List.replicate 4 ⟨3, 3⟩) 2 [1, 2]).getD [])).height
            e.lod % 2))) :=
  ⟨by decide, rfl, claim_C4 encA (List.replicate 4 ⟨3, 3⟩) 2 [1, 2]
    (pack_build encA (List.replicate 4 ⟨3, 3⟩) 3 3 2 [1, 2]
      ((all_records encA (List.replicate 4 ⟨3, 3⟩) 2 [1, 2]).getD [])) (by decide) rfl⟩

lemma header_pre_assoc (w h t : Nat) (lods : List Nat) :
    header_pre w h t lods =
      (MAGIC ++ packU32 VERSION ++ packU32 w ++ packU32 h ++ packU32 t ++
          packU32 lods.length) ++
        (lods.flatMap packU32 ++
          (packU32 (py_ceil_div w t) ++
            (packU32 (py_ceil_div h t) ++ packU32 NUM_LAYERS))) := by
  simp [header_pre, List.append_assoc]

lemma header_lead_length (w h t L : Nat) :
    (MAGIC ++ packU32 VERSION ++ packU32 w ++ packU32 h ++ packU32 t ++
      packU32 L).length = 28 := by
  simp [MAGIC, packU32_length]

/-- C5: `pack_atlas_3d` keeps the caller-supplied LOD order: the header's
`lods` array, located right after the first 28 header bytes, is exactly
the supplied list serialized in order, and the index entries' `lod`
fields form the supplied sequence of LOD blocks in that same order, with
each occurrence of `s` contributing its full block of entries. -/
theorem claim_C5 (enc : Enc) (imgs : List Img) (t : Nat) (lods : List Nat) (r : PackResult)
    (h : pack_atlas_3d enc imgs t lods = .ok r) :
    (r.file.drop 28).take (4 * lods.length) = lods.flatMap packU32 ∧
    r.entries.map (fun e => e.lod) =
      lods.flatMap (fun s => List.replicate (lod_entry_count r.width r.height t s) s) := by
  obtain ⟨first, rest, raw, hcons, hlen, hall, hraw, hr⟩ := pack_ok_cases h
  subst hr
  constructor
  · rw [pack_build_file, header_pre_assoc, List.append_assoc,
      List.drop_left' (header_lead_length first.width first.height t lods.length),
      List.append_assoc]
    exact List.take_left' (lods_bytes_length lods)
  · rw [pack_build_entries, pack_build_width, pack_build_height, resolve_entries_map_lod]
    exact all_records_map_lod enc imgs t first.width first.height hlen hall lods raw hraw

/-- Witness for C5 at a concrete run: four 2-by-2 layers, tile size 1,
LODs `[2, 1]` (deliberately not sorted). -/
theorem claim_C5_witness :
    pack_atlas_3d encA (List.replicate 4 ⟨2, 2⟩) 1 [2, 1] =
      .ok (pack_build encA (List.replicate 4 ⟨2, 2⟩) 2 2 1 [2, 1]
        ((all_records encA (List.replicate 4 ⟨2, 2⟩) 1 [2, 1]).getD [])) ∧
    (((pack_build encA (List.replicate 4 ⟨2, 2⟩) 2 2 1 [2, 1]
          ((all_records encA (List.replicate 4 ⟨2, 2⟩) 1 [2, 1]).getD [])).file.drop 28).take
        (4 * ([2, 1] : List Nat).length) = ([2, 1] : List Nat).flatMap packU32 ∧
      (pack_build encA (List.replicate 4 ⟨2, 2⟩) 2 2 1 [2, 1]
          ((all_records encA (List.replicate 4 ⟨2, 2⟩) 1 [2, 1]).getD [])).entries.map
          (fun e => e.lod) =
        ([2, 1] : List Nat).flatMap (fun s =>
          List.replicate
            (lod_entry_count
              (pack_build encA (List.replicate 4 ⟨2, 2⟩) 2 2 1 [2, 1]
                ((all_records encA (List.replicate 4 ⟨2, 2⟩) 1 [2, 1]).getD [])).width
              (pack_build encA (List.replicate 4 ⟨2, 2⟩) 2 2 1 [2, 1]
                ((all_records encA (List.replicate 4 ⟨2, 2⟩) 1 [2, 1]).getD [])).height
              1 s) s)) :=
  ⟨rfl, claim_C5 encA (List.replicate 4 ⟨2, 2⟩) 1 [2, 1]
    (pack_build encA (List.replicate 4 ⟨2, 2⟩) 2 2 1 [2, 1]
      ((all_records encA (List.replicate 4 ⟨2, 2⟩) 1 [2, 1]).getD [])) rfl⟩

/-- C6: for four identical 300-by-300 layers with `tile_px = 256` and
`lods = [1, 2]`, the header records a 2-by-2 full-resolution tile grid,
and the run produces 20 index entries: 16 for LOD 1 (4 layers times 4
tiles) and 4 for LOD 2 (the 150-by-150 raster gives one tile per layer). -/
theorem claim_C6 (enc : Enc) :
    pack_atlas_3d enc (List.replicate 4 ⟨300, 300⟩) 256 [1, 2] =
      .ok (pack_build enc (List.replicate 4 ⟨300, 300⟩) 300 300 256 [1, 2]
        ((all_records enc (List.replicate 4 ⟨300, 300⟩) 256 [1, 2]).getD [])) ∧
    py_ceil_div 300 256 = 2 ∧
    ((header_pre 300 300 256 [1, 2]).drop 36).take 8 = packU32 2 ++ packU32 2 ∧
    (pack_build enc (List.replicate 4 ⟨300, 300⟩) 300 300 256 [1, 2]
      ((all_records enc (List.replicate 4 ⟨300, 300⟩) 256 [1, 2]).getD [])).entries.length =
      20 ∧
    ((pack_build enc (List.replicate 4 ⟨300, 300⟩) 300 300 256 [1, 2]
        ((all_records enc (List.replicate 4 ⟨300, 300⟩) 256 [1, 2]).getD [])).entries.filter
        (fun e => e.lod == 1)).length = 16 ∧
    ((pack_build enc (List.replicate 4 ⟨300, 300⟩) 300 300 256 [1, 2]
        ((all_records enc (List.replicate 4 ⟨300, 300⟩) 256 [1, 2]).getD [])).entries.filter
        (fun e => e.lod == 2)).length = 4 :=
  ⟨rfl, by decide, by decide, rfl, rfl, rfl⟩

/-- C10: no deduplication of the LOD list: for any value `s`, the number
of index entries with `lod = s` is `lods.count s` times the per-run block
size, so `k > 1` occurrences are downsampled, encoded and indexed `k`
separate times; a concrete duplicated run yields duplicate
`(lod, z, tile_x, tile_y)` index keys; and the CLI LOD validation accepts
duplicate values since it only checks membership in one-two-four and
non-emptiness. -/
theorem claim_C10 (enc : Enc) (imgs : List Img) (t : Nat) (lods : List Nat) (r : PackResult)
    (s : Nat) (h : pack_atlas_3d enc imgs t lods = .ok r) :
    (r.entries.filter (fun e => e.lod == s)).length =
      lods.count s * lod_entry_count r.width r.height t s ∧
    ¬((pack_build encA (List.replicate 4 ⟨1, 1⟩) 1 1 1 [1, 1]
        ((all_records encA (List.replicate 4 ⟨1, 1⟩) 1 [1, 1]).getD [])).entries.map
        (fun e => (e.lod, e.z, e.tx, e.ty))).Nodup ∧
    validate_lods [2, 2] = true := by
  refine ⟨?_, by decide, by decide⟩
  obtain ⟨first, rest, raw, hcons, hlen, hall, hraw, hr⟩ := pack_ok_cases h
  subst hr
  rw [pack_build_entries, pack_build_width, pack_build_height]
  have h2 : (resolve_entries 0 raw).map (fun e => e.lod) =
      lods.flatMap (fun u =>
        List.replicate (lod_entry_count first.width first.height t u) u) := by
    rw [resolve_entries_map_lod]
    exact all_records_map_lod enc imgs t first.width first.height hlen hall lods raw hraw
  rw [← List.countP_eq_length_filter]
  have h3 : (resolve_entries 0 raw).countP (fun e => e.lod == s) =
      ((resolve_entries 0 raw).map (fun e => e.lod)).countP (fun v => v == s) := by
    rw [List.countP_map]
    rfl
  rw [h3, h2]
  exact count_in_blocks (fun u => lod_entry_count first.width first.height t u) s lods

/-- Witness for C10 at a concrete duplicated run: four 1-by-1 layers,
tile size 1, LODs `[1, 1]`, counting the entries for `s = 1`. -/
theorem claim_C10_witness :
    pack_atlas_3d encA (List.replicate 4 ⟨1, 1⟩) 1 [1, 1] =
      .ok (pack_build encA (List.replicate 4 ⟨1, 1⟩) 1 1 1 [1, 1]
        ((all_records encA (List.replicate 4 ⟨1, 1⟩) 1 [1, 1]).getD [])) ∧
    (((pack_build encA (List.replicate 4 ⟨1, 1⟩) 1 1 1 [1, 1]
          ((all_records encA (List.replicate 4 ⟨1, 1⟩) 1 [1, 1]).getD [])).entries.filter
          (fun e => e.lod == 1)).length =
        ([1, 1] : List Nat).count 1 *
          lod_entry_count
            (pack_build encA (List.replicate 4 ⟨1, 1⟩) 1 1 1 [1, 1]
              ((all_records encA (List.replicate 4 ⟨1, 1⟩) 1 [1, 1]).getD [])).width
            (pack_build encA (List.replicate 4 ⟨1, 1⟩) 1 1 1 [1, 1]
              ((all_records encA (List.replicate 4 ⟨1, 1⟩) 1 [1, 1]).getD [])).height 1 1 ∧
      ¬((pack_build encA (List.replicate 4 ⟨1, 1⟩) 1 1 1 [1, 1]
          ((all_records encA (List.replicate 4 ⟨1, 1⟩) 1 [1, 1]).getD [])).entries.map
          (fun e => (e.lod, e.z, e.tx, e.ty))).Nodup ∧
      validate_lods [2, 2] = true) :=
  ⟨rfl, claim_C10 encA (List.replicate 4 ⟨1, 1⟩) 1 [1, 1]
    (pack_build encA (List.replicate 4 ⟨1, 1⟩) 1 1 1 [1, 1]
      ((all_records encA (List.replicate 4 ⟨1, 1⟩) 1 [1, 1]).getD [])) 1 rfl⟩
